import Mathlib

/-!
Shallow embedding of the glance notification daemon (src/main.rs) and proofs
about its history/cursor state machine.

Modelling conventions:
* `u32` values are `Nat`; the generator's wrap test compares against
  `U32_MAX = 2^32 - 1` exactly as the source compares against `u32::MAX`.
* `IndexMap<u32, Notification>` is a `List (Nat × Notification)` in insertion
  order.  `IndexMap::insert` replaces the value in place when the key is
  present and appends otherwise; `shift_remove` removes the entry with the
  given key preserving the order of the rest; `shift_remove_index` is
  `List.eraseIdx` (both are silent no-ops when the key/index is absent,
  matching the `Option` results the source discards).
* A Rust panic (`Option::unwrap` on `None` in `close_notification`) is
  modelled by an `Option` result: `none` means the operation aborts without
  producing a state.
* `println!` renders are modelled by returning the `WaybarOutput` record that
  would be printed; `IndexMap::index` (`self.history[i]`) panics when out of
  range, so `bar_text` returns an `Option String` whose `none` models that
  panic.  Operations that render either zero or one time return a list of
  outputs.
-/

/-- Configuration record of the daemon: the three format templates
(`read_format`, `unread_format`, `bar_format`) supplied on the command line. -/
structure NotificationConfig where
  read_format : String
  unread_format : String
  bar_format : String
deriving DecidableEq

/-- One notification record: the three text fields kept from the protocol
call plus the read flag. -/
structure Notification where
  app_name : String
  summary : String
  body : String
  read : Bool
deriving DecidableEq

/-- Whether `pat` occurs at the head of `l` (used to model `str::replace`). -/
def leadsWith : List Char → List Char → Bool
  | [], _ => true
  | _ :: _, [] => false
  | p :: ps, c :: cs => decide (p = c) && leadsWith ps cs

/-- Fuelled worker for `replaceList`.  Each step consumes at least one
character, so fuel equal to the input length never runs out. -/
def replaceGo (pat rep : List Char) : Nat → List Char → List Char
  | 0, l => l
  | _ + 1, [] => []
  | fuel + 1, c :: rest =>
    if pat.length ≠ 0 ∧ leadsWith pat (c :: rest) then
      rep ++ replaceGo pat rep fuel (rest.drop (pat.length - 1))
    else
      c :: replaceGo pat rep fuel rest

/-- Model of Rust `str::replace`: replace every non-overlapping occurrence of
`pat` by `rep`, scanning left to right.  (The source only ever calls it with
the non-empty literal patterns of the placeholder tokens, so the empty-pattern
behaviour is irrelevant.) -/
def replaceList (pat rep l : List Char) : List Char :=
  replaceGo pat rep l.length l

/-- Model of Rust `str::replace` on `String`s. -/
def strReplace (s pat rep : String) : String :=
  String.mk (replaceList pat.toList rep.toList s.toList)

/-- `Notification::format_with`: substitute the three placeholder tokens, in
the source's order (app, then summary, then body). -/
def Notification.format_with (self : Notification) (format : String) : String :=
  strReplace (strReplace (strReplace format "\x7bapp\x7d" self.app_name)
    "\x7bsummary\x7d" self.summary) "\x7bbody\x7d" self.body

/-- `IndexMap::insert`: if the key is present, replace the value keeping the
entry's position; otherwise append the pair at the end. -/
def indexMapInsert : List (Nat × Notification) → Nat → Notification → List (Nat × Notification)
  | [], id, n => [(id, n)]
  | (k, v) :: rest, id, n =>
    if k = id then (k, n) :: rest else (k, v) :: indexMapInsert rest id n

/-- `IndexMap::shift_remove`: drop the entry with the given key (first
occurrence; keys are unique in an `IndexMap`), shifting the rest down. -/
def shiftRemove : List (Nat × Notification) → Nat → List (Nat × Notification)
  | [], _ => []
  | (k, v) :: rest, id => if k = id then rest else (k, v) :: shiftRemove rest id

/-- The server state: ordered history, optional cursor (`visible_on_bar`),
last assigned ID and the configuration. -/
structure NotificationServer where
  history : List (Nat × Notification)
  visible_on_bar : Option Nat
  last_notification_id : Nat
  config : NotificationConfig
deriving DecidableEq

/-- One JSON line printed for waybar.  `text` is an `Option` because the
source computes it by indexing (`self.history[i]`), which panics when the
cursor is out of range; `none` models that panic.  `cls` models the optional
`"class"` key of the new-notification variant. -/
structure WaybarOutput where
  text : Option String
  tooltip : String
  cls : Option String
deriving DecidableEq

/-- `NotificationServer::new` (the CLI parse that produces the config is an
external collaborator, so the config is a parameter). -/
def NotificationServer.new (config : NotificationConfig) : NotificationServer :=
  { history := [], visible_on_bar := none, last_notification_id := 0, config }

/-- `NotificationServer::add_to_history`. -/
def NotificationServer.add_to_history (s : NotificationServer) (id : Nat)
    (notification : Notification) : NotificationServer :=
  { s with history := indexMapInsert s.history id notification }

/-- `NotificationServer::get_notification_list`: format every entry, most
recently inserted first, read template when `read`, unread otherwise, joined
by newlines. -/
def NotificationServer.get_notification_list (s : NotificationServer) : String :=
  String.intercalate "\n" (s.history.reverse.map (fun p =>
    let format := if p.2.read then s.config.read_format else s.config.unread_format
    p.2.format_with format))

/-- `NotificationServer::bar_text`; `none` models the panic of
`self.history[index]` when the index is out of range. -/
def NotificationServer.bar_text (s : NotificationServer) (index : Nat) : Option String :=
  (s.history.get? index).map (fun p => p.2.format_with s.config.bar_format)

/-- `NotificationServer::display_notifications_on_bar` (the printed record). -/
def NotificationServer.display_notifications_on_bar (s : NotificationServer) : WaybarOutput :=
  { text := match s.visible_on_bar with
      | some i => s.bar_text i
      | none => some ""
    tooltip := s.get_notification_list
    cls := none }

/-- `NotificationServer::new_notification_display` (the printed record with
the extra `"class": "notify"` marker). -/
def NotificationServer.new_notification_display (s : NotificationServer) : WaybarOutput :=
  { text := match s.visible_on_bar with
      | some i => s.bar_text i
      | none => some ""
    tooltip := s.get_notification_list
    cls := some "notify" }

/-- Maximum representable `u32` value. -/
def U32_MAX : Nat := 2 ^ 32 - 1

/-- `NotificationServer::new_id`: set `last_notification_id` to its wrap
successor (`u32::MAX` wraps to 1) and return it. -/
def NotificationServer.new_id (s : NotificationServer) : Nat × NotificationServer :=
  let id := if s.last_notification_id = U32_MAX then 1 else s.last_notification_id + 1
  (id, { s with last_notification_id := id })

/-- Set the read flag of the entry at `index` (the list analogue of
`self.history[index].read = true`; every call site keeps the index in
bounds, where the source would otherwise panic and this model is a no-op). -/
def markReadList : List (Nat × Notification) → Nat → List (Nat × Notification)
  | [], _ => []
  | (k, v) :: rest, 0 => (k, { v with read := true }) :: rest
  | (k, v) :: rest, i + 1 => (k, v) :: markReadList rest i

/-- `NotificationServer::mark_read`. -/
def NotificationServer.mark_read (s : NotificationServer) (index : Nat) : NotificationServer :=
  { s with history := markReadList s.history index }

/-- `NotificationServer::previous_notification`: no-op without render on an
empty history; otherwise move the cursor back (marking the passed entry
read) and render. -/
def NotificationServer.previous_notification (s : NotificationServer) :
    NotificationServer × List WaybarOutput :=
  if s.history.isEmpty then (s, [])
  else
    let s2 := match s.visible_on_bar with
      | some index =>
        if index = 0 then s.mark_read index
        else { s.mark_read index with visible_on_bar := some (index - 1) }
      | none => { s with visible_on_bar := some 0 }
    (s2, [s2.display_notifications_on_bar])

/-- `NotificationServer::next_notification`: no-op without render on an empty
history; otherwise advance the cursor (marking the passed entry read) and
render. -/
def NotificationServer.next_notification (s : NotificationServer) :
    NotificationServer × List WaybarOutput :=
  if s.history.isEmpty then (s, [])
  else
    let s2 := match s.visible_on_bar with
      | some index =>
        if index = s.history.length - 1 then s.mark_read index
        else { s.mark_read index with visible_on_bar := some (index + 1) }
      | none => { s with visible_on_bar := some 0 }
    (s2, [s2.display_notifications_on_bar])

/-- `NotificationServer::mark_read_and_render`. -/
def NotificationServer.mark_read_and_render (s : NotificationServer) :
    NotificationServer × WaybarOutput :=
  let s2 := match s.visible_on_bar with
    | some index => s.mark_read index
    | none => s
  (s2, s2.display_notifications_on_bar)

/-- `NotificationServer::notify` (D-Bus method): build the notification,
allocate or reuse the ID, upsert it, point the cursor at the last index and
render the new-notification variant.  Returns the ID, the new state and the
printed record.  The icon/actions/hints/timeout parameters never reach the
state, so they are omitted. -/
def NotificationServer.notify (s : NotificationServer) (app_name : String)
    (replaces_id : Nat) (summary body : String) :
    Nat × NotificationServer × WaybarOutput :=
  let notification : Notification :=
    { app_name, summary, body, read := false }
  let p := if replaces_id = 0 then s.new_id else (replaces_id, s)
  let h := indexMapInsert p.2.history p.1 notification
  let s2 : NotificationServer :=
    { p.2 with history := h, visible_on_bar := some (h.length - 1) }
  (p.1, s2, s2.new_notification_display)

/-- Rust `Option<usize>` comparison `o >= Some(n)` under the derived `Ord`,
where `None` is below every `Some`. -/
def optGe : Option Nat → Nat → Bool
  | none, _ => false
  | some i, n => decide (n ≤ i)

/-- `NotificationServer::close_notification`: `id == 0` removes the visible
entry (`unwrap` panics — result `none` — when the cursor is `None`),
otherwise remove by key; then re-clamp the cursor and render. -/
def NotificationServer.close_notification (s : NotificationServer) (id : Nat) :
    Option (NotificationServer × WaybarOutput) :=
  match (if id = 0 then
           match s.visible_on_bar with
           | some i => some (s.history.eraseIdx i)
           | none => none
         else some (shiftRemove s.history id)) with
  | none => none
  | some history =>
    let s1 : NotificationServer := { s with history := history }
    let s2 : NotificationServer :=
      if optGe s1.visible_on_bar s1.history.length then
        { s1 with visible_on_bar :=
            if s1.history.length = 0 then none else some (s1.history.length - 1) }
      else s1
    some (s2, s2.display_notifications_on_bar)

/-- Whether key `k` occurs in the map. -/
def hasKey (l : List (Nat × Notification)) (k : Nat) : Bool :=
  l.any (fun p => decide (p.1 = k))

/-- One externally triggered mutation of the server state: a `notify` call, a
successful `close_notification` call (id 0 requires the cursor to be set, or
the call panics and produces no state), or one of the three signal-driven
cursor operations. -/
inductive ServerStep : NotificationServer → NotificationServer → Prop
  | notify (s : NotificationServer) (app : String) (repl : Nat) (sm bd : String) :
      ServerStep s (s.notify app repl sm bd).2.1
  | close (s : NotificationServer) (id : Nat) (r : NotificationServer × WaybarOutput) :
      s.close_notification id = some r → ServerStep s r.1
  | prev (s : NotificationServer) : ServerStep s s.previous_notification.1
  | next (s : NotificationServer) : ServerStep s s.next_notification.1
  | markRead (s : NotificationServer) : ServerStep s s.mark_read_and_render.1

/-- States reachable from the freshly constructed server. -/
inductive ServerReachable (cfg : NotificationConfig) : NotificationServer → Prop
  | init : ServerReachable cfg (NotificationServer.new cfg)
  | step {s s' : NotificationServer} :
      ServerReachable cfg s → ServerStep s s' → ServerReachable cfg s'

/-- The cursor, when set, is a valid index into the history. -/
def cursorInBounds (s : NotificationServer) : Prop :=
  ∀ i, s.visible_on_bar = some i → i < s.history.length

/-! ### Concrete fixtures used by counterexamples and witnesses -/

/-- A concrete configuration with simple placeholder-only templates. -/
def testCfg : NotificationConfig :=
  { read_format := "R \x7bapp\x7d", unread_format := "U \x7bapp\x7d",
    bar_format := "B \x7bapp\x7d" }

/-- A read notification from application A. -/
def nA : Notification := { app_name := "A", summary := "sA", body := "bA", read := true }

/-- An unread notification from application A. -/
def nAu : Notification := { app_name := "A", summary := "sA", body := "bA", read := false }

/-- An unread notification from application B. -/
def nB : Notification := { app_name := "B", summary := "sB", body := "bB", read := false }

/-- An unread notification from application C. -/
def nC : Notification := { app_name := "C", summary := "sC", body := "bC", read := false }

/-- First call of the replace scenario: append A under a fresh ID. -/
def c1s1 : Nat × NotificationServer × WaybarOutput :=
  (NotificationServer.new testCfg).notify "A" 0 "sA" "bA"

/-- Second call of the replace scenario: append B under a fresh ID. -/
def c1s2 : Nat × NotificationServer × WaybarOutput :=
  c1s1.2.1.notify "B" 0 "sB" "bB"

/-- Third call of the replace scenario: replace the entry with ID 1 by C. -/
def c1s3 : Nat × NotificationServer × WaybarOutput :=
  c1s2.2.1.notify "C" 1 "sC" "bC"

/-- First call of the collision scenario: insert A under the explicit ID 1
(the generator state stays at 0). -/
def c2s1 : Nat × NotificationServer × WaybarOutput :=
  (NotificationServer.new testCfg).notify "A" 1 "sA" "bA"

/-- Second call of the collision scenario: request an automatic ID. -/
def c2s2 : Nat × NotificationServer × WaybarOutput :=
  c2s1.2.1.notify "B" 0 "sB" "bB"

/-- A reachable one-entry state used to instantiate the invariant. -/
def c4s : NotificationServer :=
  ((NotificationServer.new testCfg).notify "A" 0 "sA" "bA").2.1

/-- Two entries with the cursor on the second one. -/
def c5s : NotificationServer := ⟨[(1, nA), (2, nB)], some 1, 2, testCfg⟩

/-- A single entry with the cursor on it. -/
def c5t : NotificationServer := ⟨[(1, nA)], some 0, 1, testCfg⟩

/-- State produced by `c5s.close_notification 0`. -/
def c5s1 : NotificationServer := ⟨[(1, nA)], some 0, 2, testCfg⟩

/-- Output produced by `c5s.close_notification 0`. -/
def c5out : WaybarOutput := ⟨some "B A", "R A", none⟩

/-- Three unread entries with no cursor. -/
def c6s : NotificationServer := ⟨[(1, nAu), (2, nB), (3, nC)], none, 3, testCfg⟩

/-- State after the first "next" trigger on `c6s`. -/
def c6t1 : NotificationServer := c6s.next_notification.1

/-- State after the second "next" trigger on `c6s`. -/
def c6t2 : NotificationServer := c6t1.next_notification.1

/-- State after the third "next" trigger on `c6s`. -/
def c6t3 : NotificationServer := c6t2.next_notification.1

/-- Generator state sitting at the maximum representable ID. -/
def c7s : NotificationServer := ⟨[], none, U32_MAX, testCfg⟩

/-- Two entries, second unread, cursor at the last index. -/
def c8s : NotificationServer := ⟨[(1, nAu), (2, nB)], some 1, 2, testCfg⟩

/-- Three entries with the cursor on the middle one. -/
def c10s : NotificationServer := ⟨[(1, nA), (2, nB), (3, nC)], some 1, 3, testCfg⟩

/-- State produced by `c10s.close_notification 1`. -/
def c10s1 : NotificationServer := ⟨[(2, nB), (3, nC)], some 1, 3, testCfg⟩

/-- Output produced by `c10s.close_notification 1`. -/
def c10out : WaybarOutput := ⟨some "B C", "U C\nU B", none⟩

/-! ### Helper lemmas -/

theorem length_markReadList (l : List (Nat × Notification)) (i : Nat) :
    (markReadList l i).length = l.length := by
  induction l generalizing i with
  | nil => rfl
  | cons p rest ih =>
    obtain ⟨k, v⟩ := p
    cases i with
    | zero => rfl
    | succ i => simp [markReadList, ih]

theorem markReadList_idem (l : List (Nat × Notification)) (i : Nat) :
    markReadList (markReadList l i) i = markReadList l i := by
  induction l generalizing i with
  | nil => rfl
  | cons p rest ih =>
    obtain ⟨k, v⟩ := p
    cases i with
    | zero => rfl
    | succ i => simp [markReadList, ih]

theorem markReadList_get?_self (l : List (Nat × Notification)) (i : Nat)
    (h : i < l.length) :
    ((markReadList l i).get? i).map (fun p => p.2.read) = some true := by
  induction l generalizing i with
  | nil => simp at h
  | cons p rest ih =>
    obtain ⟨k, v⟩ := p
    cases i with
    | zero => rfl
    | succ i =>
      simp only [markReadList, List.get?]
      exact ih i (by simpa using h)

theorem indexMapInsert_length_pos (l : List (Nat × Notification)) (k : Nat)
    (v : Notification) : 0 < (indexMapInsert l k v).length := by
  cases l with
  | nil => simp [indexMapInsert]
  | cons p rest =>
    obtain ⟨k1, v1⟩ := p
    by_cases h : k1 = k <;> simp [indexMapInsert, h]

theorem indexMapInsert_length_of_hasKey (l : List (Nat × Notification)) (k : Nat)
    (v : Notification) (h : hasKey l k = true) :
    (indexMapInsert l k v).length = l.length := by
  induction l with
  | nil => simp [hasKey] at h
  | cons p rest ih =>
    obtain ⟨k1, v1⟩ := p
    by_cases hk : k1 = k
    · simp [indexMapInsert, hk]
    · have h1 : hasKey rest k = true := by
        simp [hasKey] at h ⊢
        rcases h with h | h
        · exact absurd h hk
        · exact h
      simp [indexMapInsert, hk, ih h1]

theorem isEmpty_false_of_ne (l : List (Nat × Notification)) (h : l ≠ []) :
    l.isEmpty = false := by
  cases l <;> simp_all

theorem length_pos_of_ne (l : List (Nat × Notification)) (h : l ≠ []) :
    0 < l.length := by
  cases l <;> simp_all

theorem shiftRemove_eq_eraseIdx (l : List (Nat × Notification)) (id : Nat) :
    shiftRemove l id = l.eraseIdx (l.findIdx (fun p => decide (p.1 = id))) := by
  induction l with
  | nil => rfl
  | cons p rest ih =>
    obtain ⟨k, v⟩ := p
    by_cases h : k = id
    · simp [shiftRemove, h, List.findIdx_cons]
    · simp [shiftRemove, h, List.findIdx_cons, List.eraseIdx, ih]

theorem eraseIdx_get?_of_lt {α : Type} (l : List α) (i j : Nat) (h : i < j) :
    (l.eraseIdx j).get? i = l.get? i := by
  induction l generalizing i j with
  | nil => rfl
  | cons a rest ih =>
    cases j with
    | zero => omega
    | succ j =>
      cases i with
      | zero => rfl
      | succ i =>
        simp only [List.eraseIdx, List.get?]
        exact ih i j (by omega)

theorem eraseIdx_get?_of_ge {α : Type} (l : List α) (i j : Nat)
    (hj : j < l.length) (h : j ≤ i) :
    (l.eraseIdx j).get? i = l.get? (i + 1) := by
  induction l generalizing i j with
  | nil => simp at hj
  | cons a rest ih =>
    cases j with
    | zero => rfl
    | succ j =>
      cases i with
      | zero => omega
      | succ i =>
        simp only [List.eraseIdx, List.get?]
        exact ih i j (by simpa using hj) (by omega)

theorem notify_visible_eq (s : NotificationServer) (app : String) (repl : Nat)
    (sm bd : String) :
    (s.notify app repl sm bd).2.1.visible_on_bar =
      some ((s.notify app repl sm bd).2.1.history.length - 1) := rfl

theorem notify_history_length_pos (s : NotificationServer) (app : String)
    (repl : Nat) (sm bd : String) :
    0 < (s.notify app repl sm bd).2.1.history.length :=
  indexMapInsert_length_pos _ _ _

theorem next_eq_of_empty (s : NotificationServer) (h : s.history = []) :
    s.next_notification = (s, []) := by
  simp [NotificationServer.next_notification, h]

theorem next_eq_of_none (s : NotificationServer) (h : s.history ≠ [])
    (hv : s.visible_on_bar = none) :
    s.next_notification.1 = { s with visible_on_bar := some 0 } := by
  simp [NotificationServer.next_notification, isEmpty_false_of_ne s.history h, hv]

theorem next_eq_of_last (s : NotificationServer) (i : Nat) (h : s.history ≠ [])
    (hv : s.visible_on_bar = some i) (hi : i = s.history.length - 1) :
    s.next_notification.1 = s.mark_read i := by
  simp [NotificationServer.next_notification, isEmpty_false_of_ne s.history h, hv, hi]

theorem next_eq_of_mid (s : NotificationServer) (i : Nat) (h : s.history ≠ [])
    (hv : s.visible_on_bar = some i) (hi : i ≠ s.history.length - 1) :
    s.next_notification.1 = { s.mark_read i with visible_on_bar := some (i + 1) } := by
  simp [NotificationServer.next_notification, isEmpty_false_of_ne s.history h, hv, hi]

theorem close_some_visible_eq (s : NotificationServer) (id : Nat)
    (s' : NotificationServer) (out : WaybarOutput)
    (h : s.close_notification id = some (s', out)) :
    s'.visible_on_bar =
      (if optGe s.visible_on_bar s'.history.length then
        (if s'.history.length = 0 then none else some (s'.history.length - 1))
      else s.visible_on_bar) := by
  unfold NotificationServer.close_notification at h
  split at h
  · exact absurd h (by simp)
  next hist heq =>
    simp only [Option.some.injEq, Prod.mk.injEq] at h
    obtain ⟨hs, _⟩ := h
    subst hs
    by_cases hc : optGe s.visible_on_bar hist.length <;> simp [hc]

theorem close_history_eq (s : NotificationServer) (id : Nat)
    (s' : NotificationServer) (out : WaybarOutput)
    (h : s.close_notification id = some (s', out)) (hid : id ≠ 0) :
    s'.history = shiftRemove s.history id := by
  unfold NotificationServer.close_notification at h
  rw [if_neg hid] at h
  simp only [Option.some.injEq, Prod.mk.injEq] at h
  obtain ⟨hs, _⟩ := h
  subst hs
  by_cases hc : optGe s.visible_on_bar (shiftRemove s.history id).length <;> simp [hc]

theorem cursorInBounds_new (cfg : NotificationConfig) :
    cursorInBounds (NotificationServer.new cfg) := by
  intro i hi
  simp [NotificationServer.new] at hi

theorem cursorInBounds_notify (s : NotificationServer) (app : String) (repl : Nat)
    (sm bd : String) : cursorInBounds (s.notify app repl sm bd).2.1 := by
  intro i hi
  rw [notify_visible_eq] at hi
  have hpos := notify_history_length_pos s app repl sm bd
  obtain rfl : (s.notify app repl sm bd).2.1.history.length - 1 = i :=
    Option.some.injEq _ _ |>.mp hi
  omega

theorem cursorInBounds_close (s : NotificationServer) (id : Nat)
    (s' : NotificationServer) (out : WaybarOutput)
    (h : s.close_notification id = some (s', out)) : cursorInBounds s' := by
  intro i hi
  rw [close_some_visible_eq s id s' out h] at hi
  by_cases hc : optGe s.visible_on_bar s'.history.length
  · rw [if_pos hc] at hi
    by_cases hz : s'.history.length = 0
    · simp [hz] at hi
    · rw [if_neg hz] at hi
      obtain rfl : s'.history.length - 1 = i := Option.some.injEq _ _ |>.mp hi
      omega
  · rw [if_neg hc] at hi
    rw [hi] at hc
    simp [optGe] at hc
    omega

theorem prev_eq_of_empty (s : NotificationServer) (h : s.history = []) :
    s.previous_notification = (s, []) := by
  simp [NotificationServer.previous_notification, h]

theorem prev_eq_of_none (s : NotificationServer) (h : s.history ≠ [])
    (hv : s.visible_on_bar = none) :
    s.previous_notification.1 = { s with visible_on_bar := some 0 } := by
  simp [NotificationServer.previous_notification, isEmpty_false_of_ne s.history h, hv]

theorem prev_eq_of_zero (s : NotificationServer) (h : s.history ≠ [])
    (hv : s.visible_on_bar = some 0) :
    s.previous_notification.1 = s.mark_read 0 := by
  simp [NotificationServer.previous_notification, isEmpty_false_of_ne s.history h, hv]

theorem prev_eq_of_pos (s : NotificationServer) (j : Nat) (h : s.history ≠ [])
    (hv : s.visible_on_bar = some j) (hj : j ≠ 0) :
    s.previous_notification.1 = { s.mark_read j with visible_on_bar := some (j - 1) } := by
  simp [NotificationServer.previous_notification, isEmpty_false_of_ne s.history h, hv, hj]

theorem cursorInBounds_prev (s : NotificationServer) (h : cursorInBounds s) :
    cursorInBounds s.previous_notification.1 := by
  by_cases he : s.history = []
  · have heq : s.previous_notification.1 = s := by rw [prev_eq_of_empty s he]
    rw [heq]
    exact h
  · have hpos := length_pos_of_ne s.history he
    rcases hv : s.visible_on_bar with _ | j
    · rw [prev_eq_of_none s he hv]
      intro i hi
      simp at hi ⊢
      omega
    · by_cases h0 : j = 0
      · rw [h0] at hv
        rw [prev_eq_of_zero s he hv]
        intro i hi
        simp [NotificationServer.mark_read, hv] at hi
        simp [NotificationServer.mark_read, length_markReadList]
        omega
      · rw [prev_eq_of_pos s j he hv h0]
        intro i hi
        simp at hi
        have := h j hv
        simp [NotificationServer.mark_read, length_markReadList]
        omega

theorem cursorInBounds_next (s : NotificationServer) (h : cursorInBounds s) :
    cursorInBounds s.next_notification.1 := by
  by_cases he : s.history = []
  · have heq : s.next_notification.1 = s := by rw [next_eq_of_empty s he]
    rw [heq]
    exact h
  · have hpos := length_pos_of_ne s.history he
    rcases hv : s.visible_on_bar with _ | j
    · rw [next_eq_of_none s he hv]
      intro i hi
      simp at hi ⊢
      omega
    · by_cases hj : j = s.history.length - 1
      · rw [next_eq_of_last s j he hv hj]
        intro i hi
        simp [NotificationServer.mark_read, hv] at hi
        simp [NotificationServer.mark_read, length_markReadList]
        omega
      · rw [next_eq_of_mid s j he hv hj]
        intro i hi
        simp at hi
        have := h j hv
        simp [NotificationServer.mark_read, length_markReadList]
        omega

theorem cursorInBounds_markRead (s : NotificationServer) (h : cursorInBounds s) :
    cursorInBounds s.mark_read_and_render.1 := by
  rcases hv : s.visible_on_bar with _ | j
  · intro i hi
    simp [NotificationServer.mark_read_and_render, hv] at hi
  · intro i hi
    simp [NotificationServer.mark_read_and_render, hv,
      NotificationServer.mark_read] at hi ⊢
    rw [length_markReadList]
    exact h i (by rw [hv, hi])

/-! ### Claim theorems -/

/-- C1 counterexample: starting from a fresh server, append A (ID 1) and
B (ID 2), then call notify with replaces_id = 1.  The replaced entry keeps
position 0 (its content is now C), but the cursor is set to the last index 1,
not to the replaced entry's position 0. -/
theorem notify_replace_cursor_cex :
    (c1s2.2.1.history.get? 0).map (fun p => p.1) = some 1 ∧
    c1s3.1 = 1 ∧
    (c1s3.2.1.history.get? 0).map (fun p => (p.1, p.2.app_name)) = some (1, "C") ∧
    c1s3.2.1.visible_on_bar = some 1 ∧
    c1s3.2.1.visible_on_bar ≠ some 0 := by
  decide

/-- C1 amended: after every notify call the cursor equals the last index of
the history — also when replaces_id names an already-present ID, whose entry
keeps its earlier position; in that case the cursor does not point at the
replaced entry. -/
theorem notify_cursor_is_last_index (s : NotificationServer) (app : String)
    (repl : Nat) (sm bd : String) :
    (s.notify app repl sm bd).2.1.visible_on_bar =
      some ((s.notify app repl sm bd).2.1.history.length - 1) :=
  notify_visible_eq s app repl sm bd

/-- C2 counterexample: insert A under the explicit ID 1 (the generator still
sits at 0), then request an automatic ID.  The generator returns 1, which is
still present, and the notify silently replaces the existing entry in place
(the history length stays 1 and position 0 now holds B). -/
theorem auto_id_silent_replace_cex :
    c2s1.2.1.last_notification_id = 0 ∧
    hasKey c2s1.2.1.history 1 = true ∧
    c2s1.2.1.history.length = 1 ∧
    c2s2.1 = 1 ∧
    c2s2.2.1.history.length = 1 ∧
    (c2s2.2.1.history.get? 0).map (fun p => (p.1, p.2.app_name)) = some (1, "B") := by
  decide

/-- C2 amended: an automatically assigned ID (replaces_id = 0) is the wrap
successor of last_notification_id, computed without consulting the history;
when that ID is still present (for example after an explicit replaces_id ran
ahead of the generator) the notify silently replaces the existing entry in
place instead of appending. -/
theorem auto_id_ignores_history (s : NotificationServer) (app sm bd : String) :
    (s.notify app 0 sm bd).1 =
      (if s.last_notification_id = U32_MAX then 1 else s.last_notification_id + 1) ∧
    (hasKey s.history (s.notify app 0 sm bd).1 = true →
      (s.notify app 0 sm bd).2.1.history.length = s.history.length) :=
  ⟨rfl, fun h => indexMapInsert_length_of_hasKey _ _ _ h⟩

/-- C2 witness: in the collision scenario the generator yields ID 1, which is
present, so the history length is unchanged by the auto-ID notify. -/
theorem auto_id_ignores_history_witness :
    (c2s1.2.1.notify "B" 0 "sB" "bB").1 = 1 ∧
    (c2s1.2.1.notify "B" 0 "sB" "bB").2.1.history.length = c2s1.2.1.history.length :=
  ⟨(auto_id_ignores_history c2s1.2.1 "B" "sB" "bB").1.trans (by decide),
   (auto_id_ignores_history c2s1.2.1 "B" "sB" "bB").2 (by decide)⟩

/-- C3: close_notification aborts (the modelled panic of the unwrap, i.e. it
produces no successor state, leaving the history and cursor as they were)
exactly when it is the remove-visible form (id = 0) and the cursor is None;
in particular under the precondition that the cursor is Some, the failure
branch is unreachable. -/
theorem close_zero_without_cursor_fails (s : NotificationServer) (id : Nat) :
    s.close_notification id = none ↔ id = 0 ∧ s.visible_on_bar = none := by
  unfold NotificationServer.close_notification
  rcases h : s.visible_on_bar with _ | i <;> by_cases hid : id = 0 <;> simp [h, hid]

/-- C7: for every generator state representable as a u32, new_id yields a
value in 1..=u32::MAX (never 0), and from the maximum representable ID it
wraps to 1. -/
theorem new_id_in_range (s : NotificationServer)
    (h : s.last_notification_id ≤ U32_MAX) :
    (1 ≤ s.new_id.1 ∧ s.new_id.1 ≤ U32_MAX) ∧
    (s.last_notification_id = U32_MAX → s.new_id.1 = 1) ∧
    s.new_id.1 ≠ 0 := by
  have hpos : 0 < U32_MAX := by decide
  unfold NotificationServer.new_id
  by_cases hm : s.last_notification_id = U32_MAX <;> simp [hm] <;> omega

/-- C7 witness: from the generator state u32::MAX the next ID is 1, not 0. -/
theorem new_id_in_range_witness : c7s.new_id.1 = 1 ∧ c7s.new_id.1 ≠ 0 :=
  ⟨(new_id_in_range c7s (Nat.le_refl _)).2.1 rfl,
   (new_id_in_range c7s (Nat.le_refl _)).2.2⟩

/-- C9: the tooltip is the newline join of the per-entry formatted strings in
reverse insertion order, choosing the read template when the entry is read
and the unread template otherwise; concretely, for A (read), B, C inserted in
that order the tooltip lists C, then B, then A. -/
theorem tooltip_reverse_order :
    (∀ s : NotificationServer, s.get_notification_list =
      String.intercalate "\n" (s.history.reverse.map (fun p =>
        p.2.format_with
          (if p.2.read then s.config.read_format else s.config.unread_format)))) ∧
    NotificationServer.get_notification_list
      ⟨[(1, nA), (2, nB), (3, nC)], none, 3, testCfg⟩ = "U C\nU B\nR A" := by
  exact ⟨fun s => rfl, by decide⟩

/-- C4: in every state reachable from the fresh server by notify, successful
close_notification (which requires the cursor to be set when id = 0),
previous, next and mark-current-read, a set cursor is a valid index into the
history; in particular the cursor is None whenever the history is empty. -/
theorem reachable_cursor_in_bounds (cfg : NotificationConfig)
    (s : NotificationServer) (h : ServerReachable cfg s) :
    (∀ i, s.visible_on_bar = some i → i < s.history.length) ∧
    (s.history = [] → s.visible_on_bar = none) := by
  have main : cursorInBounds s := by
    induction h with
    | init => exact cursorInBounds_new cfg
    | step hr hstep ih =>
      cases hstep with
      | notify app repl sm bd => exact cursorInBounds_notify _ app repl sm bd
      | close id r hc => exact cursorInBounds_close _ id r.1 r.2 hc
      | prev => exact cursorInBounds_prev _ ih
      | next => exact cursorInBounds_next _ ih
      | markRead => exact cursorInBounds_markRead _ ih
  refine ⟨main, fun he => ?_⟩
  rcases hv : s.visible_on_bar with _ | i
  · rfl
  · have hlt := main i hv
    rw [he] at hlt
    simp at hlt

/-- C4 witness: the invariant instantiated at the reachable state obtained by
one notify call on the fresh server (its cursor is Some 0, so the history is
non-empty). -/
theorem reachable_cursor_in_bounds_witness : 0 < c4s.history.length := by
  have hr : ServerReachable testCfg c4s :=
    ServerReachable.step ServerReachable.init
      (ServerStep.notify (NotificationServer.new testCfg) "A" 0 "sA" "bA")
  exact (reachable_cursor_in_bounds testCfg c4s hr).1 0 (by decide)

/-- C5: whenever close_notification succeeds and the cursor index is at least
the new history length, the cursor is re-clamped to the last index (None when
the history became empty); concretely, with 2 entries and cursor Some 1,
close_notification 0 removes the visible entry and leaves cursor Some 0, and
closing the last remaining entry leaves cursor None with the next bar text
rendering as the empty string. -/
theorem close_reclamps_cursor :
    (∀ (s : NotificationServer) (id : Nat) (s' : NotificationServer)
      (out : WaybarOutput) (i : Nat),
      s.close_notification id = some (s', out) → s.visible_on_bar = some i →
      s'.history.length ≤ i →
      s'.visible_on_bar =
        (if s'.history.length = 0 then none else some (s'.history.length - 1))) ∧
    (c5s.close_notification 0).map (fun p => (p.1.visible_on_bar, p.1.history.length))
      = some (some 0, 1) ∧
    (c5t.close_notification 0).map (fun p => (p.1.visible_on_bar, p.2.text))
      = some (none, some "") := by
  refine ⟨?_, by decide, by decide⟩
  intro s id s' out i h hcur hle
  rw [close_some_visible_eq s id s' out h, hcur]
  have hge : optGe (some i) s'.history.length = true := by
    simp [optGe]
    omega
  rw [hge]
  simp

/-- C5 witness: the re-clamp conclusion instantiated on the two-entry
scenario, with the hypotheses discharged by computation. -/
theorem close_reclamps_cursor_witness :
    c5s1.visible_on_bar =
      (if c5s1.history.length = 0 then none else some (c5s1.history.length - 1)) :=
  close_reclamps_cursor.1 c5s 0 c5s1 c5out 1 (by decide) (by decide) (by decide)

/-- C6: next is a no-op without render on an empty history; turns a None
cursor into Some 0; at the last index marks that entry read and stays;
otherwise marks the current entry read and advances the cursor; and on three
unread entries with cursor None three next triggers produce the cursor
sequence None, 0, 1, 2 with exactly indices 0 and 1 read. -/
theorem next_transition_spec :
    (∀ s : NotificationServer, s.history = [] → s.next_notification = (s, [])) ∧
    (∀ s : NotificationServer, s.history ≠ [] → s.visible_on_bar = none →
      s.next_notification.1 = { s with visible_on_bar := some 0 }) ∧
    (∀ (s : NotificationServer) (i : Nat), s.history ≠ [] →
      s.visible_on_bar = some i → i = s.history.length - 1 →
      s.next_notification.1 = s.mark_read i) ∧
    (∀ (s : NotificationServer) (i : Nat), s.history ≠ [] →
      s.visible_on_bar = some i → i ≠ s.history.length - 1 →
      s.next_notification.1 = { s.mark_read i with visible_on_bar := some (i + 1) }) ∧
    (c6s.visible_on_bar = none ∧ c6t1.visible_on_bar = some 0 ∧
     c6t2.visible_on_bar = some 1 ∧ c6t3.visible_on_bar = some 2 ∧
     c6t3.history.map (fun p => p.2.read) = [true, true, false]) :=
  ⟨next_eq_of_empty, next_eq_of_none, next_eq_of_last, next_eq_of_mid, by decide⟩

/-- C6 witness: the last-index branch instantiated on the state after the
three next triggers, with the hypotheses discharged by computation. -/
theorem next_transition_spec_witness :
    c6t3.next_notification.1 = c6t3.mark_read 2 :=
  next_transition_spec.2.2.1 c6t3 2 (by decide) (by decide) (by decide)

/-- C8: once the cursor is at the last index, next is idempotent on the
server state: one application marks the last entry read and keeps the cursor
fixed, and a second application changes nothing (next after next equals
next), the read flag at the last index being true after the first call. -/
theorem next_idempotent_at_last (s : NotificationServer) (hne : s.history ≠ [])
    (hcur : s.visible_on_bar = some (s.history.length - 1)) :
    s.next_notification.1.next_notification.1 = s.next_notification.1 ∧
    (s.next_notification.1.history.get? (s.history.length - 1)).map
      (fun p => p.2.read) = some true := by
  have hpos := length_pos_of_ne s.history hne
  have h1 : s.next_notification.1 = s.mark_read (s.history.length - 1) :=
    next_eq_of_last s _ hne hcur rfl
  have hlen : (s.mark_read (s.history.length - 1)).history.length = s.history.length := by
    simp [NotificationServer.mark_read, length_markReadList]
  have hne2 : (s.mark_read (s.history.length - 1)).history ≠ [] := by
    intro hc
    have h0 := congrArg List.length hc
    rw [hlen] at h0
    simp at h0
    exact hne h0
  have hcur2 : (s.mark_read (s.history.length - 1)).visible_on_bar =
      some ((s.mark_read (s.history.length - 1)).history.length - 1) := by
    rw [hlen]
    exact hcur
  have h2 := next_eq_of_last (s.mark_read (s.history.length - 1)) _ hne2 hcur2 rfl
  constructor
  · rw [h1, h2, hlen]
    simp [NotificationServer.mark_read, markReadList_idem]
  · rw [h1]
    exact markReadList_get?_self s.history (s.history.length - 1) (by omega)

/-- C8 witness: the idempotence conclusion on a two-entry state with the
cursor at the last index. -/
theorem next_idempotent_at_last_witness :
    c8s.next_notification.1.next_notification.1 = c8s.next_notification.1 :=
  (next_idempotent_at_last c8s (by decide) (by decide)).1

/-- C10: when close_notification removes the entry at position j while the
cursor is Some i with j different from i, and i is still a valid index of the
shortened history, the cursor keeps the numeric value i; the entry it then
designates is the old entry at i + 1 when j was before the cursor (the
designation silently shifts), and the old entry at i when j was after it —
the cursor tracks a position, not an entry identity. -/
theorem close_cursor_keeps_position (s : NotificationServer) (id : Nat)
    (s' : NotificationServer) (out : WaybarOutput) (i j : Nat)
    (h : s.close_notification id = some (s', out)) (hid : id ≠ 0)
    (hcur : s.visible_on_bar = some i)
    (hj : s.history.findIdx (fun p => decide (p.1 = id)) = j)
    (hjlen : j < s.history.length) (_hji : j ≠ i)
    (hvalid : i < s'.history.length) :
    s'.visible_on_bar = some i ∧
    (j < i → s'.history.get? i = s.history.get? (i + 1)) ∧
    (i < j → s'.history.get? i = s.history.get? i) := by
  have hh : s'.history = s.history.eraseIdx j := by
    rw [close_history_eq s id s' out h hid, shiftRemove_eq_eraseIdx, hj]
  refine ⟨?_, ?_, ?_⟩
  · rw [close_some_visible_eq s id s' out h, hcur]
    have hge : optGe (some i) s'.history.length = false := by
      simp [optGe]
      omega
    rw [hge]
    simp
  · intro hlt
    rw [hh]
    exact eraseIdx_get?_of_ge s.history i j hjlen (Nat.le_of_lt hlt)
  · intro hlt
    rw [hh]
    exact eraseIdx_get?_of_lt s.history i j hlt

/-- C10 witness: removing the entry with ID 1 (position 0) from a three-entry
history with cursor Some 1 keeps the cursor value 1, which now designates the
entry that was at position 2. -/
theorem close_cursor_keeps_position_witness :
    c10s1.visible_on_bar = some 1 ∧ c10s1.history.get? 1 = c10s.history.get? 2 := by
  have hm := close_cursor_keeps_position c10s 1 c10s1 c10out 1 0 (by decide)
    (by decide) (by decide) (by decide) (by decide) (by decide) (by decide)
  exact ⟨hm.1, hm.2.1 (by decide)⟩
